import Mathlib

/-!
Verification of `django_db_comments/db_comments.py` (selectstar/django-db-comments).

The module copies model/field documentation into PostgreSQL column and table
comments.  This file gives a shallow embedding of the module:

* `Field` / `Model` / `AppConfig` mirror the Django metadata attributes the
  code reads (`field.name`, `field.column`, `field.verbose_name`,
  `field.help_text`, `field.model`, `model._meta.db_table`,
  `model._meta.verbose_name`, `model._meta.abstract`, `model._meta.proxy`,
  `model._meta.managed`, `model._meta.app_label`, `app_config.label`,
  `app_config.models_module`).  Python dictionaries are embedded as
  association lists in insertion order with `dictInsert` giving the
  assignment semantics of `d[k] = v`.
* Lazily translated strings (`ugettext_lazy` proxies) are embedded by the
  `Text` type; `Text.str` is Python's `str()` coercion.
* Database effects are embedded as an event trace (`Event`): opening a
  cursor, entering `transaction.atomic()`, and `cursor.execute(sql, params)`.
  The host collaborators (`settings.DATABASES[...]["ENGINE"]`,
  `router.allow_migrate`, statement success/failure at the database) are an
  explicit environment `Env`.
* `copy_help_texts_to_database` takes the mutable module-global set
  `PROCESSED_APPS` as explicit state (a list of app-config identities) and
  returns the new state, the emitted trace and the propagated exception, if
  any.  The `print` calls at verbosity >= 2 write to stdout only and are not
  part of the database-effect trace.
-/

namespace DbComments

/-- Python string value that may be a deferred translation proxy
(`ugettext_lazy`); `str()` resolves either to a plain string. -/
inductive Text where
  | plain : String → Text
  | lazy : String → Text
deriving DecidableEq

/-- Python `str(t)`: a plain string is returned as is, a lazy proxy is
resolved to its underlying string. -/
def Text.str : Text → String
  | Text.plain s => s
  | Text.lazy s => s

/-- ASCII lower-casing of one character (Python `str.lower` restricted to the
ASCII inputs this code base handles). -/
def charLower (c : Char) : Char :=
  if 65 ≤ c.toNat ∧ c.toNat ≤ 90 then Char.ofNat (c.toNat + 32) else c

/-- ASCII upper-casing of one character. -/
def charUpper (c : Char) : Char :=
  if 97 ≤ c.toNat ∧ c.toNat ≤ 122 then Char.ofNat (c.toNat - 32) else c

/-- ASCII letter test (the "cased character" test used by Python `str.title`
for the ASCII inputs this code base handles). -/
def charIsAlpha (c : Char) : Bool :=
  decide ((65 ≤ c.toNat ∧ c.toNat ≤ 90) ∨ (97 ≤ c.toNat ∧ c.toNat ≤ 122))

/-- Python `s.lower()` for ASCII strings. -/
def lowerAscii (s : String) : String :=
  String.mk (s.data.map charLower)

/-- Python `s.replace("_", " ")`: code point 95 (underscore) becomes code
point 32 (space). -/
def replaceUnderscores (s : String) : String :=
  String.mk (s.data.map (fun c => if c.toNat = 95 then Char.ofNat 32 else c))

/-- `t.lower()` on a possibly lazy string: the proxy resolves and the result
is lower-cased. -/
def Text.lower (t : Text) : String :=
  lowerAscii t.str

/-- Python truthiness of a possibly lazy string: non-empty after
resolution. -/
def Text.isTruthy (t : Text) : Bool :=
  !(t.str == "")

/-- Helper for `pyTitle`: upper-case every ASCII letter that follows a
non-letter, lower-case every other letter, as Python `str.title` does. -/
def titleChars : List Char → Bool → List Char
  | [], _ => []
  | c :: cs, prevAlpha =>
    (if charIsAlpha c then (if prevAlpha then charLower c else charUpper c) else c)
      :: titleChars cs (charIsAlpha c)

/-- Python `s.title()` for ASCII strings. -/
def pyTitle (s : String) : String :=
  String.mk (titleChars s.data false)

/-- `t.title()` on a possibly lazy string. -/
def Text.title (t : Text) : String :=
  pyTitle t.str

/-- Python `sep.join(parts)`. -/
def pyJoin (sep : String) : List String → String
  | [] => ""
  | [s] => s
  | s :: rest => s ++ sep ++ pyJoin sep rest

/-- One Django model field, with the attributes `get_comments_for_model`
reads: attribute name (`field.name`), database column (`field.column`),
display name (`field.verbose_name`), help text (`field.help_text`) and the
identity of the declaring model class (`field.model`). -/
structure Field where
  name : String
  column : String
  verbose_name : Text
  help_text : Text
  model : Nat
deriving DecidableEq

/-- One Django model class; `_meta` attributes are inlined.  `id` is the
Python object identity of the class, used by the `field.model == model`
comparison and nothing else. -/
structure Model where
  id : Nat
  app_label : String
  db_table : String
  verbose_name : Text
  abstract : Bool
  proxy : Bool
  managed : Bool
  fields : List Field
deriving DecidableEq

/-- One Django `AppConfig`.  `id` is the object identity used by membership
in the `PROCESSED_APPS` set; `models_module` is the truthiness of
`app_config.models_module`. -/
structure AppConfig where
  id : Nat
  label : String
  models_module : Bool
deriving DecidableEq

/-- Association-list lookup, embedding Python `d[k]` / `k in d` on dicts
represented in insertion order. -/
def dictGet {α : Type} : List (String × α) → String → Option α
  | [], _ => none
  | p :: d, k => if p.1 = k then some p.2 else dictGet d k

/-- Python dict assignment `d[k] = v`: replace the value if the key is
present (keeping its position), otherwise append the new pair. -/
def dictInsert {α : Type} : List (String × α) → String → α → List (String × α)
  | [], k, v => [(k, v)]
  | p :: d, k, v => if p.1 = k then (k, v) :: d else p :: dictInsert d k v

/-- A loop that walks a list and performs one optional dict assignment per
element, in order — the shape of every dict-building loop/comprehension in
the source. -/
def assocUpdates {β α : Type} (upd : β → Option (String × α)) :
    List β → List (String × α) → List (String × α)
  | [], d => d
  | b :: bs, d =>
    match upd b with
    | some kv => assocUpdates upd bs (dictInsert d kv.1 kv.2)
    | none => assocUpdates upd bs d

/-- The keys of an embedded dict, in insertion order. -/
def dictKeys {α : Type} (d : List (String × α)) : List String :=
  d.map Prod.fst

/-- The keys assigned by a dict-building loop, in loop order. -/
def updKeys {β α : Type} (upd : β → Option (String × α)) (l : List β) : List String :=
  l.filterMap (fun b => Option.map Prod.fst (upd b))

/-- Lines 38-48 of `db_comments.py`: the ordered part list for one field.
The display name is kept when `field.verbose_name.lower()` differs from
`field.name.lower().replace("_", " ")` (the Django auto-generation rule);
the help text is kept when truthy.  `Text.str` is the `str()` coercion
applied to each kept part. -/
def field_comment (field : Field) : List String :=
  (if Text.lower field.verbose_name ≠ replaceUnderscores (lowerAscii field.name)
    then [Text.str field.verbose_name] else [])
  ++ (if field.help_text.isTruthy then [Text.str field.help_text] else [])

/-- The loop body of `get_comments_for_model` for one field: fields whose
declaring model is not the processed model are skipped (line 37), and a
field with an empty part list contributes nothing (line 49); otherwise the
parts are joined with `" | "` and assigned to the field's column (line 50). -/
def field_update (mid : Nat) (field : Field) : Option (String × String) :=
  if field.model = mid then
    (if field_comment field = [] then none
      else some (field.column, pyJoin " | " (field_comment field)))
  else none

/-- `get_comments_for_model(model)` (lines 32-52): fold the per-field dict
assignment over `model._meta.fields` starting from the empty dict. -/
def get_comments_for_model (model : Model) : List (String × String) :=
  assocUpdates (field_update model.id) model.fields []

/-- `ALLOWED_ENGINES` (lines 13-18). -/
def ALLOWED_ENGINES : List String :=
  ["django.db.backends.postgresql",
   "django.contrib.gis.db.backends.postgis",
   "django.db.backends.postgresql_psycopg2",
   "psqlextra.backend"]

/-- The host collaborators read by the module: the configured engine per
connection alias (`settings.DATABASES[using]["ENGINE"]`), the migration
router (`router.allow_migrate(using, app_label)`), and whether the database
accepts a given statement (`cursor.execute` succeeding or raising). -/
structure Env where
  engine : String → String
  allow_migrate : String → String → Bool
  execOk : String → List String → Bool

/-- Database-effect trace events: `connections[using].cursor()`,
`transaction.atomic()`, and `cursor.execute(sql, params)`. -/
inductive Event where
  | openCursor : String → Event
  | beginAtomic : Event
  | execute : String → List String → Event
deriving DecidableEq

/-- Discriminator for cursor-opening events (each writer invocation opens
exactly one cursor). -/
def Event.isOpenCursor : Event → Bool
  | Event.openCursor _ => true
  | _ => false

/-- The exception raised by a failing `cursor.execute`, carrying the
statement that failed. -/
structure PgError where
  sql : String
  params : List String
deriving DecidableEq

/-- `psycopg2.sql.Identifier` rendering: the identifier wrapped in double
quotes, with any embedded double quote doubled (code point 34). -/
def escapeQuotes (s : String) : String :=
  String.mk (s.data.flatMap (fun c => if c.toNat = 34 then [c, c] else [c]))

/-- Quoted-identifier rendering used by `sql.Identifier`. -/
def quoteIdent (s : String) : String :=
  "\"" ++ escapeQuotes s ++ "\""

/-- `POSTGRES_COMMENT_SQL.format(sql.Identifier(table), sql.Identifier(column))`
(line 22 plus lines 61-63): the rendered statement text. -/
def column_comment_sql (table column : String) : String :=
  "COMMENT ON COLUMN " ++ quoteIdent table ++ "." ++ quoteIdent column ++ " IS %s"

/-- `POSTGRES_COMMENT_ON_TABLE_SQL.format(sql.Identifier(table))` (line 24
plus lines 71-73): the rendered statement text. -/
def table_comment_sql (table : String) : String :=
  "COMMENT ON TABLE " ++ quoteIdent table ++ " IS %s"

/-- Run a list of `(sql, params)` statements through `cursor.execute` in
order; a failing statement raises, so nothing after it runs and the raised
error carries that statement. -/
def execStmts (env : Env) : List (String × List String) → List Event × Option PgError
  | [] => ([], none)
  | sp :: rest =>
    if env.execOk sp.1 sp.2 then
      (Event.execute sp.1 sp.2 :: (execStmts env rest).1, (execStmts env rest).2)
    else ([Event.execute sp.1 sp.2], some { sql := sp.1, params := sp.2 })

/-- The statements of the nested loop of `add_column_comments_to_database`
(lines 58-64), in dict iteration order: one `COMMENT ON COLUMN` per
`(table, column, comment)` entry, with the comment as the single bound
parameter. -/
def column_stmts (columns_comments : List (String × List (String × String))) :
    List (String × List String) :=
  columns_comments.flatMap
    (fun tc => tc.2.map (fun cc => (column_comment_sql tc.1 cc.1, [cc.2])))

/-- `add_column_comments_to_database(columns_comments, using)` (lines
55-64): open a cursor on the chosen connection, enter one atomic
transaction, execute the statements in order. -/
def add_column_comments_to_database (env : Env)
    (columns_comments : List (String × List (String × String)))
    (usingAlias : String) : List Event × Option PgError :=
  let r := execStmts env (column_stmts columns_comments)
  (Event.openCursor usingAlias :: Event.beginAtomic :: r.1, r.2)

/-- `add_table_comments_to_database(table_comment_dict, using)` (lines
67-74): one `COMMENT ON TABLE` per `(table, comment)` entry inside one
cursor and one atomic transaction. -/
def add_table_comments_to_database (env : Env)
    (table_comment_dict : List (String × String))
    (usingAlias : String) : List Event × Option PgError :=
  let r := execStmts env
    (table_comment_dict.map (fun tc => (table_comment_sql tc.1, [tc.2])))
  (Event.openCursor usingAlias :: Event.beginAtomic :: r.1, r.2)

/-- `_check_app_config(app_config, using)` (lines 77-87). -/
def _check_app_config (env : Env) (app_config : AppConfig) (usingAlias : String) : Bool :=
  if !app_config.models_module then false
  else if !(ALLOWED_ENGINES.contains (env.engine usingAlias)) then false
  else if !(env.allow_migrate usingAlias app_config.label) then false
  else true

/-- The filter of lines 107-117: keep a registry model unless it is
abstract, a proxy, or unmanaged (`not any([abstract, proxy, not managed])`). -/
def model_is_concrete (m : Model) : Bool :=
  !(m.abstract || m.proxy || !m.managed)

/-- One step of the dict comprehension of lines 119-121: every enumerated
model contributes its table as a key, mapped to its extracted column
comments. -/
def columns_update (m : Model) : Option (String × List (String × String)) :=
  some (m.db_table, get_comments_for_model m)

/-- The dict comprehension of lines 119-121. -/
def columns_comments_map (app_models : List Model) : List (String × List (String × String)) :=
  assocUpdates columns_update app_models []

/-- One step of the dict comprehension of lines 126-130: a model with a
truthy display name contributes its table mapped to the title-cased display
name. -/
def table_update (m : Model) : Option (String × String) :=
  if m.verbose_name.isTruthy then some (m.db_table, Text.title m.verbose_name) else none

/-- The dict comprehension of lines 126-130. -/
def table_comments_map (app_models : List Model) : List (String × String) :=
  assocUpdates table_update app_models []

/-- The orchestrator's result: the new `PROCESSED_APPS` state, the emitted
database-effect trace, and the exception propagated to the caller, if any. -/
structure OrchResult where
  processed : List Nat
  events : List Event
  error : Option PgError
deriving DecidableEq

/-- Lines 119-124: build the column-comment dict and, when it is truthy
(non-empty), hand it to `add_column_comments_to_database`. -/
def col_phase (env : Env) (usingAlias : String) (app_models : List Model) :
    List Event × Option PgError :=
  if (columns_comments_map app_models).isEmpty then ([], none)
  else add_column_comments_to_database env (columns_comments_map app_models) usingAlias

/-- Lines 126-133: build the table-comment dict and, when it is truthy
(non-empty), hand it to `add_table_comments_to_database`. -/
def tab_phase (env : Env) (usingAlias : String) (app_models : List Model) :
    List Event × Option PgError :=
  if (table_comments_map app_models).isEmpty then ([], none)
  else add_table_comments_to_database env (table_comments_map app_models) usingAlias

/-- Lines 107-133, the body of the orchestrator after the guard and
eligibility check: enumerate the concrete registry models, run the column
phase, and — unless it raised — the table phase.  A raised exception skips
everything after it and propagates in `error`. -/
def sync_models (env : Env) (processed2 : List Nat) (usingAlias : String)
    (registry_models : List Model) : OrchResult :=
  let app_models := registry_models.filter model_is_concrete
  match (col_phase env usingAlias app_models).2 with
  | some e =>
    { processed := processed2, events := (col_phase env usingAlias app_models).1,
      error := some e }
  | none =>
    { processed := processed2,
      events := (col_phase env usingAlias app_models).1 ++
        (tab_phase env usingAlias app_models).1,
      error := (tab_phase env usingAlias app_models).2 }

/-- `copy_help_texts_to_database(app_config, ...)` (lines 90-141) over the
explicit `PROCESSED_APPS` state and the app registry `apps.get_models()`
(the full registry list, in registration order).  The verbosity-gated
`print` loop (lines 135-141) writes to stdout only and emits no database
effect, so it does not appear in the trace. -/
def copy_help_texts_to_database (env : Env) (processed : List Nat)
    (app_config : AppConfig) (usingAlias : String) (registry_models : List Model) :
    OrchResult :=
  if processed.contains app_config.id then
    { processed := processed, events := [], error := none }
  else
    let processed2 := processed ++ [app_config.id]
    if !(_check_app_config env app_config usingAlias) then
      { processed := processed2, events := [], error := none }
    else sync_models env processed2 usingAlias registry_models

/-! ### Concrete fixtures (used as witnesses and counterexamples) -/

/-- Host environment: a PostgreSQL connection, permissive router, database
accepting every statement. -/
def envOk : Env :=
  { engine := fun _ => "django.db.backends.postgresql",
    allow_migrate := fun _ _ => true,
    execOk := fun _ _ => true }

/-- Host environment whose database rejects every statement
(`cursor.execute` always raises). -/
def envReject : Env :=
  { engine := fun _ => "django.db.backends.postgresql",
    allow_migrate := fun _ _ => true,
    execOk := fun _ _ => false }

/-- Host environment configured with the MySQL engine. -/
def envMysql : Env :=
  { engine := fun _ => "django.db.backends.mysql",
    allow_migrate := fun _ _ => true,
    execOk := fun _ _ => true }

/-- The `tests` app config of the repository's test suite. -/
def tests_app : AppConfig :=
  { id := 10, label := "tests", models_module := true }

/-- `created_at` field of the test suite's `ExampleModel`: auto-generated
display name, lazy help text. -/
def created_at_field : Field :=
  { name := "created_at", column := "created_at",
    verbose_name := Text.plain "created at",
    help_text := Text.lazy "model creation time", model := 1 }

/-- The test suite's `ExampleModel` (table `tests_examplemodel`). -/
def example_model : Model :=
  { id := 1, app_label := "tests", db_table := "tests_examplemodel",
    verbose_name := Text.plain "this is an example for table comment",
    abstract := false, proxy := false, managed := true,
    fields := [created_at_field] }

/-- A foreign-key-like field: attribute name `author`, database column
`author_id`, display name auto-generated from the attribute name. -/
def author_field : Field :=
  { name := "author", column := "author_id",
    verbose_name := Text.plain "author",
    help_text := Text.plain "", model := 2 }

/-- A model holding `author_field`. -/
def book_model : Model :=
  { id := 2, app_label := "tests", db_table := "tests_book",
    verbose_name := Text.plain "book",
    abstract := false, proxy := false, managed := true,
    fields := [author_field] }

/-- The single documented field of `other_model`. -/
def note_field : Field :=
  { name := "note", column := "note",
    verbose_name := Text.plain "note",
    help_text := Text.plain "a note", model := 3 }

/-- A concrete model of a different app (`other`), with one documented
column. -/
def other_model : Model :=
  { id := 3, app_label := "other", db_table := "other_table",
    verbose_name := Text.plain "",
    abstract := false, proxy := false, managed := true,
    fields := [note_field] }

/-- A concrete model with no fields and an empty display name. -/
def bare_model : Model :=
  { id := 4, app_label := "tests", db_table := "tests_bare",
    verbose_name := Text.plain "",
    abstract := false, proxy := false, managed := true,
    fields := [] }

/-- A `created_at` field with auto-generated display name and no help
text. -/
def created_at_plain_field : Field :=
  { name := "created_at", column := "created_at",
    verbose_name := Text.plain "created at",
    help_text := Text.plain "", model := 6 }

/-- A model holding `created_at_plain_field`. -/
def created_at_model : Model :=
  { id := 6, app_label := "tests", db_table := "tests_created",
    verbose_name := Text.plain "",
    abstract := false, proxy := false, managed := true,
    fields := [created_at_plain_field] }

/-- The field of the spec's worked example: explicit display name and help
text on column `verbose_name`. -/
def vn_field : Field :=
  { name := "verbose_name", column := "verbose_name",
    verbose_name := Text.plain "This is verbose name",
    help_text := Text.lazy "I am really should see this in database", model := 5 }

/-- A model holding `vn_field` (table `model`). -/
def vn_model : Model :=
  { id := 5, app_label := "tests", db_table := "model",
    verbose_name := Text.plain "",
    abstract := false, proxy := false, managed := true,
    fields := [vn_field] }

/-! ### Association-list and loop lemmas -/

theorem dictGet_dictInsert {α : Type} (d : List (String × α)) (k c : String) (v : α) :
    dictGet (dictInsert d k v) c = if c = k then some v else dictGet d c := by
  induction d with
  | nil =>
    by_cases h : c = k
    · simp [dictInsert, dictGet, h]
    · simp [dictInsert, dictGet, h, Ne.symm h]
  | cons p d ih =>
    simp only [dictInsert]
    by_cases hp : p.1 = k
    · rw [if_pos hp]
      by_cases h : c = k
      · simp [dictGet, h]
      · have hpc : ¬ p.1 = c := fun hc => h (hc.symm.trans hp)
        simp [dictGet, h, Ne.symm h, hpc]
    · rw [if_neg hp]
      by_cases hc : p.1 = c
      · have hck : ¬ c = k := fun h2 => hp (hc.trans h2)
        simp [dictGet, hc, hck]
      · simp [dictGet, hc, ih]

theorem dictInsert_ne_nil {α : Type} (d : List (String × α)) (k : String) (v : α) :
    dictInsert d k v ≠ [] := by
  cases d with
  | nil => simp [dictInsert]
  | cons p d => by_cases hp : p.1 = k <;> simp [dictInsert, hp]

theorem dictInsert_of_not_mem_keys {α : Type} (d : List (String × α)) (k : String) (v : α)
    (h : k ∉ dictKeys d) : dictInsert d k v = d ++ [(k, v)] := by
  induction d with
  | nil => simp [dictInsert]
  | cons p d ih =>
    simp only [dictKeys, List.map_cons, List.mem_cons, not_or] at h
    have hp : ¬ p.1 = k := fun hp => h.1 hp.symm
    simp [dictInsert, hp, ih (by simpa [dictKeys] using h.2)]

theorem mem_dictInsert {α : Type} (d : List (String × α)) (k : String) (v : α)
    (p : String × α) (h : p ∈ dictInsert d k v) : p = (k, v) ∨ p ∈ d := by
  induction d with
  | nil => simpa [dictInsert] using h
  | cons q d ih =>
    by_cases hq : q.1 = k
    · simp only [dictInsert, hq, if_pos, List.mem_cons] at h
      rcases h with h | h
      · exact Or.inl h
      · exact Or.inr (List.mem_cons_of_mem q h)
    · simp only [dictInsert, hq, if_neg, not_false_iff, List.mem_cons] at h
      rcases h with h | h
      · exact Or.inr (by simp [h])
      · rcases ih h with h | h
        · exact Or.inl h
        · exact Or.inr (List.mem_cons_of_mem q h)

theorem assocUpdates_ne_nil {β α : Type} (upd : β → Option (String × α)) (l : List β)
    (d : List (String × α)) (hd : d ≠ []) : assocUpdates upd l d ≠ [] := by
  induction l generalizing d with
  | nil => simpa [assocUpdates] using hd
  | cons b bs ih =>
    cases hb : upd b with
    | none => simpa [assocUpdates, hb] using ih d hd
    | some kv => simpa [assocUpdates, hb] using ih _ (dictInsert_ne_nil d kv.1 kv.2)

theorem dictGet_assocUpdates_isSome {β α : Type} (upd : β → Option (String × α))
    (l : List β) (d : List (String × α)) (k : String) :
    (dictGet (assocUpdates upd l d) k).isSome = true ↔
      (dictGet d k).isSome = true ∨ ∃ b ∈ l, ∃ v, upd b = some (k, v) := by
  induction l generalizing d with
  | nil => simp [assocUpdates]
  | cons b bs ih =>
    cases hb : upd b with
    | none =>
      rw [assocUpdates, hb]
      rw [ih d]
      constructor
      · rintro (h | h)
        · exact Or.inl h
        · exact Or.inr (by rcases h with ⟨b', hb', v, hv⟩; exact ⟨b', List.mem_cons_of_mem b hb', v, hv⟩)
      · rintro (h | ⟨b', hb', v, hv⟩)
        · exact Or.inl h
        · rcases List.mem_cons.mp hb' with rfl | hb'
          · rw [hb] at hv; cases hv
          · exact Or.inr ⟨b', hb', v, hv⟩
    | some kv =>
      rw [assocUpdates, hb]
      rw [ih _]
      rw [dictGet_dictInsert]
      by_cases hk : k = kv.1
      · subst hk
        rw [if_pos rfl]
        constructor
        · intro _
          exact Or.inr ⟨b, List.mem_cons_self b bs, kv.2, by rw [hb]⟩
        · intro _
          exact Or.inl rfl
      · rw [if_neg hk]
        constructor
        · rintro (h | ⟨b', hb', v, hv⟩)
          · exact Or.inl h
          · exact Or.inr ⟨b', List.mem_cons_of_mem b hb', v, hv⟩
        · rintro (h | ⟨b', hb', v, hv⟩)
          · exact Or.inl h
          · rcases List.mem_cons.mp hb' with rfl | hb'
            · rw [hb] at hv
              injection hv with h2
              rw [h2] at hk
              exact absurd rfl hk
            · exact Or.inr ⟨b', hb', v, hv⟩

theorem assocUpdates_cons_none {β α : Type} (upd : β → Option (String × α)) (b : β)
    (bs : List β) (d : List (String × α)) (h : upd b = none) :
    assocUpdates upd (b :: bs) d = assocUpdates upd bs d := by
  rw [assocUpdates, h]

theorem assocUpdates_cons_some {β α : Type} (upd : β → Option (String × α)) (b : β)
    (bs : List β) (d : List (String × α)) (kv : String × α) (h : upd b = some kv) :
    assocUpdates upd (b :: bs) d = assocUpdates upd bs (dictInsert d kv.1 kv.2) := by
  rw [assocUpdates, h]

theorem mem_updKeys {β α : Type} (upd : β → Option (String × α)) (l : List β)
    (b : β) (kv : String × α) (hb : b ∈ l) (h : upd b = some kv) :
    kv.1 ∈ updKeys upd l := by
  exact List.mem_filterMap.mpr ⟨b, hb, by rw [h]; rfl⟩

theorem dictGet_assocUpdates_eq_some {β α : Type} (upd : β → Option (String × α))
    (l : List β) (d : List (String × α)) (k : String) (v : α)
    (hnd : (updKeys upd l).Nodup) :
    dictGet (assocUpdates upd l d) k = some v ↔
      (dictGet d k = some v ∧ ∀ b ∈ l, ∀ w, upd b ≠ some (k, w)) ∨
      ∃ b ∈ l, upd b = some (k, v) := by
  induction l generalizing d with
  | nil => simp [assocUpdates]
  | cons b bs ih =>
    cases hb : upd b with
    | none =>
      have hnd' : (updKeys upd bs).Nodup := by
        simpa [updKeys, List.filterMap_cons, hb] using hnd
      rw [assocUpdates_cons_none upd b bs d hb, ih _ hnd']
      constructor
      · rintro (⟨h1, h2⟩ | ⟨b', hb', hv⟩)
        · refine Or.inl ⟨h1, ?_⟩
          intro b' hb' w
          rcases List.mem_cons.mp hb' with rfl | hb'
          · rw [hb]; exact fun hh => Option.noConfusion hh
          · exact h2 b' hb' w
        · exact Or.inr ⟨b', List.mem_cons_of_mem b hb', hv⟩
      · rintro (⟨h1, h2⟩ | ⟨b', hb', hv⟩)
        · exact Or.inl ⟨h1, fun b' hb' w => h2 b' (List.mem_cons_of_mem b hb') w⟩
        · rcases List.mem_cons.mp hb' with rfl | hb'
          · rw [hb] at hv; cases hv
          · exact Or.inr ⟨b', hb', hv⟩
    | some kv =>
      have hcons : (kv.1 :: updKeys upd bs).Nodup := by
        simpa [updKeys, List.filterMap_cons, hb] using hnd
      have hnd' : (updKeys upd bs).Nodup := (List.nodup_cons.mp hcons).2
      have hknotin : kv.1 ∉ updKeys upd bs := (List.nodup_cons.mp hcons).1
      rw [assocUpdates_cons_some upd b bs d kv hb, ih _ hnd']
      by_cases hk : k = kv.1
      · subst hk
        constructor
        · rintro (⟨h1, h2⟩ | ⟨b', hb', hv⟩)
          · rw [dictGet_dictInsert, if_pos rfl] at h1
            injection h1 with h1
            exact Or.inr ⟨b, List.mem_cons_self b bs, by rw [hb, ← h1]⟩
          · exact absurd (mem_updKeys upd bs b' (kv.1, v) hb' hv) hknotin
        · rintro (⟨h1, h2⟩ | ⟨b', hb', hv⟩)
          · exact absurd hb (h2 b (List.mem_cons_self b bs) kv.2)
          · rcases List.mem_cons.mp hb' with rfl | hb'
            · rw [hb] at hv
              injection hv with hv
              refine Or.inl ⟨?_, ?_⟩
              · rw [dictGet_dictInsert, if_pos rfl, hv]
              · intro b'' hb'' w hw
                exact hknotin (mem_updKeys upd bs b'' (kv.1, w) hb'' hw)
            · exact absurd (mem_updKeys upd bs b' (kv.1, v) hb' hv) hknotin
      · rw [dictGet_dictInsert, if_neg hk]
        constructor
        · rintro (⟨h1, h2⟩ | ⟨b', hb', hv⟩)
          · refine Or.inl ⟨h1, ?_⟩
            intro b' hb' w hw
            rcases List.mem_cons.mp hb' with rfl | hb'
            · rw [hb] at hw
              injection hw with hw
              exact hk (congrArg Prod.fst hw).symm
            · exact h2 b' hb' w hw
          · exact Or.inr ⟨b', List.mem_cons_of_mem b hb', hv⟩
        · rintro (⟨h1, h2⟩ | ⟨b', hb', hv⟩)
          · exact Or.inl ⟨h1, fun b' hb' w => h2 b' (List.mem_cons_of_mem b hb') w⟩
          · rcases List.mem_cons.mp hb' with rfl | hb'
            · rw [hb] at hv
              injection hv with hv
              exact absurd (congrArg Prod.fst hv).symm hk
            · exact Or.inr ⟨b', hb', hv⟩

theorem mem_assocUpdates {β α : Type} (upd : β → Option (String × α)) (l : List β)
    (d : List (String × α)) (p : String × α) (h : p ∈ assocUpdates upd l d) :
    p ∈ d ∨ ∃ b ∈ l, upd b = some p := by
  induction l generalizing d with
  | nil => exact Or.inl (by simpa [assocUpdates] using h)
  | cons b bs ih =>
    cases hb : upd b with
    | none =>
      rw [assocUpdates_cons_none upd b bs d hb] at h
      rcases ih _ h with h | ⟨b', hb', hv⟩
      · exact Or.inl h
      · exact Or.inr ⟨b', List.mem_cons_of_mem b hb', hv⟩
    | some kv =>
      rw [assocUpdates_cons_some upd b bs d kv hb] at h
      rcases ih _ h with h | ⟨b', hb', hv⟩
      · rcases mem_dictInsert _ _ _ _ h with h | h
        · exact Or.inr ⟨b, List.mem_cons_self b bs, by rw [hb, h]⟩
        · exact Or.inl h
      · exact Or.inr ⟨b', List.mem_cons_of_mem b hb', hv⟩

theorem assocUpdates_filter {β α : Type} (upd : β → Option (String × α)) (pb : β → Bool)
    (l : List β) (d : List (String × α)) (h : ∀ b ∈ l, pb b = false → upd b = none) :
    assocUpdates upd (l.filter pb) d = assocUpdates upd l d := by
  induction l generalizing d with
  | nil => simp
  | cons b bs ih =>
    have hrest := fun b' hb' => h b' (List.mem_cons_of_mem b hb')
    cases hpb : pb b with
    | true =>
      rw [List.filter_cons_of_pos hpb]
      cases hb : upd b with
      | none =>
        rw [assocUpdates_cons_none upd b _ d hb, assocUpdates_cons_none upd b bs d hb]
        exact ih _ hrest
      | some kv =>
        rw [assocUpdates_cons_some upd b _ d kv hb, assocUpdates_cons_some upd b bs d kv hb]
        exact ih _ hrest
    | false =>
      rw [List.filter_cons_of_neg (by simp [hpb]),
        assocUpdates_cons_none upd b bs d (h b (List.mem_cons_self b bs) hpb)]
      exact ih _ hrest

theorem dictKeys_assocUpdates {β α : Type} (upd : β → Option (String × α)) (l : List β)
    (d : List (String × α)) (hnd : (dictKeys d ++ updKeys upd l).Nodup) :
    dictKeys (assocUpdates upd l d) = dictKeys d ++ updKeys upd l := by
  induction l generalizing d with
  | nil => simp [assocUpdates, updKeys]
  | cons b bs ih =>
    cases hb : upd b with
    | none =>
      have hkeys : updKeys upd (b :: bs) = updKeys upd bs := by
        simp [updKeys, List.filterMap_cons, hb]
      rw [hkeys] at hnd ⊢
      rw [assocUpdates_cons_none upd b bs d hb]
      exact ih _ hnd
    | some kv =>
      have hkeys : updKeys upd (b :: bs) = kv.1 :: updKeys upd bs := by
        simp [updKeys, List.filterMap_cons, hb]
      rw [hkeys] at hnd ⊢
      have hknotd : kv.1 ∉ dictKeys d := by
        rw [List.nodup_append] at hnd
        exact fun hmem => hnd.2.2 hmem (List.mem_cons_self kv.1 _)
      rw [assocUpdates_cons_some upd b bs d kv hb]
      have hins : dictInsert d kv.1 kv.2 = d ++ [(kv.1, kv.2)] :=
        dictInsert_of_not_mem_keys d kv.1 kv.2 hknotd
      have hkeyins : dictKeys (dictInsert d kv.1 kv.2) = dictKeys d ++ [kv.1] := by
        rw [hins]; simp [dictKeys]
      have hnd2 : (dictKeys (dictInsert d kv.1 kv.2) ++ updKeys upd bs).Nodup := by
        rw [hkeyins, List.append_assoc]
        simpa using hnd
      rw [ih _ hnd2, hkeyins, List.append_assoc]
      rfl

theorem updKeys_sublist_map {β α : Type} (upd : β → Option (String × α)) (f : β → String)
    (l : List β) (h : ∀ b kv, upd b = some kv → kv.1 = f b) :
    (updKeys upd l).Sublist (l.map f) := by
  induction l with
  | nil => simp [updKeys]
  | cons b bs ih =>
    cases hb : upd b with
    | none =>
      rw [updKeys, List.filterMap_cons, hb]
      exact List.Sublist.cons (f b) ih
    | some kv =>
      have hkeys : updKeys upd (b :: bs) = kv.1 :: updKeys upd bs := by
        simp [updKeys, List.filterMap_cons, hb]
      rw [hkeys, h b kv hb, List.map_cons]
      exact List.Sublist.cons₂ (f b) ih

/-! ### Statement-execution lemmas -/

theorem getLast?_cons_of_ne_nil {γ : Type} (a : γ) (l : List γ) (h : l ≠ []) :
    (a :: l).getLast? = l.getLast? := by
  cases l with
  | nil => exact absurd rfl h
  | cons x xs => exact List.getLast?_cons_cons ..

theorem execStmts_total (env : Env) (l : List (String × List String))
    (h : ∀ s p, env.execOk s p = true) :
    execStmts env l = (l.map (fun sp => Event.execute sp.1 sp.2), none) := by
  induction l with
  | nil => rfl
  | cons sp rest ih => simp [execStmts, h sp.1 sp.2, ih]

theorem execStmts_error (env : Env) (l : List (String × List String)) (e : PgError)
    (h : (execStmts env l).2 = some e) :
    env.execOk e.sql e.params = false ∧
      (execStmts env l).1.getLast? = some (Event.execute e.sql e.params) := by
  induction l with
  | nil => cases h
  | cons sp rest ih =>
    by_cases hok : env.execOk sp.1 sp.2 = true
    · rw [execStmts, if_pos hok] at h ⊢
      rcases ih h with ⟨h1, h2⟩
      refine ⟨h1, ?_⟩
      show (Event.execute sp.1 sp.2 :: (execStmts env rest).1).getLast? =
        some (Event.execute e.sql e.params)
      have hne : (execStmts env rest).1 ≠ [] := by
        intro hnil
        rw [hnil] at h2
        cases h2
      rw [getLast?_cons_of_ne_nil _ _ hne]
      exact h2
    · rw [execStmts, if_neg hok] at h ⊢
      have h' : some ({ sql := sp.1, params := sp.2 } : PgError) = some e := h
      injection h' with h'
      subst h'
      exact ⟨Bool.eq_false_iff.mpr hok, rfl⟩

theorem execStmts_isOpenCursor (env : Env) (l : List (String × List String)) :
    ∀ ev ∈ (execStmts env l).1, ev.isOpenCursor = false := by
  induction l with
  | nil => intro ev hev; cases hev
  | cons sp rest ih =>
    intro ev hev
    by_cases hok : env.execOk sp.1 sp.2 = true
    · rw [execStmts, if_pos hok] at hev
      rcases List.mem_cons.mp hev with rfl | hev
      · rfl
      · exact ih ev hev
    · rw [execStmts, if_neg hok] at hev
      rcases List.mem_cons.mp hev with rfl | hev
      · rfl
      · cases hev

/-! ### Extractor part-list lemmas -/

theorem field_comment_ne_nil_iff (f : Field) :
    field_comment f ≠ [] ↔
      (Text.lower f.verbose_name ≠ replaceUnderscores (lowerAscii f.name) ∨
        f.help_text.isTruthy = true) := by
  by_cases h1 : Text.lower f.verbose_name = replaceUnderscores (lowerAscii f.name) <;>
    by_cases h2 : f.help_text.isTruthy = true <;>
      simp [field_comment, h1, h2]

theorem field_comment_of_both (f : Field)
    (h1 : Text.lower f.verbose_name ≠ replaceUnderscores (lowerAscii f.name))
    (h2 : f.help_text.isTruthy = true) :
    field_comment f = [Text.str f.verbose_name, Text.str f.help_text] := by
  simp [field_comment, h1, h2]

theorem field_update_eq_some_iff (mid : Nat) (f : Field) (kv : String × String) :
    field_update mid f = some kv ↔
      f.model = mid ∧ field_comment f ≠ [] ∧
        kv = (f.column, pyJoin " | " (field_comment f)) := by
  by_cases h1 : f.model = mid
  · by_cases h2 : field_comment f = []
    · simp [field_update, h1, h2]
    · simp [field_update, h1, h2, eq_comm]
  · simp [field_update, h1]

theorem updKeys_field_update_sublist (mid : Nat) (fs : List Field) :
    (updKeys (field_update mid) fs).Sublist (fs.map Field.column) := by
  refine updKeys_sublist_map (field_update mid) Field.column fs ?_
  intro f kv h
  rcases (field_update_eq_some_iff mid f kv).mp h with ⟨_, _, hkv⟩
  rw [hkv]

theorem dictGet_get_comments_of_local (m : Model)
    (hnd : (m.fields.map Field.column).Nodup) (f : Field) (hf : f ∈ m.fields)
    (hloc : f.model = m.id) (hne : field_comment f ≠ []) :
    dictGet (get_comments_for_model m) f.column =
      some (pyJoin " | " (field_comment f)) := by
  rw [get_comments_for_model]
  rw [dictGet_assocUpdates_eq_some (field_update m.id) m.fields [] f.column
    (pyJoin " | " (field_comment f)) ((updKeys_field_update_sublist m.id m.fields).nodup hnd)]
  exact Or.inr ⟨f, hf, (field_update_eq_some_iff m.id f _).mpr ⟨hloc, hne, rfl⟩⟩

/-! ### Claim theorems -/

/-- Claim C3: for every model, the extractor's result maps a column name to
a comment if and only if some field with that column is declared locally on
the model and has at least one part (a display name that differs from the
auto-generated one, or truthy help text); and for a locally declared field
with distinct columns, the entry is the parts joined with the literal
separator `" | "` — in particular, when both parts are present, the comment
is the display name, then `" | "`, then the help text, each coerced by
`str()` to a plain string. -/
theorem C3_extractor_entry_iff (m : Model) :
    (∀ c : String, (dictGet (get_comments_for_model m) c).isSome = true ↔
      ∃ f ∈ m.fields, f.model = m.id ∧ f.column = c ∧
        (Text.lower f.verbose_name ≠ replaceUnderscores (lowerAscii f.name) ∨
          f.help_text.isTruthy = true)) ∧
    ((m.fields.map Field.column).Nodup →
      ∀ f ∈ m.fields, f.model = m.id →
        (field_comment f ≠ [] →
          dictGet (get_comments_for_model m) f.column =
            some (pyJoin " | " (field_comment f))) ∧
        (Text.lower f.verbose_name ≠ replaceUnderscores (lowerAscii f.name) →
          f.help_text.isTruthy = true →
          dictGet (get_comments_for_model m) f.column =
            some (Text.str f.verbose_name ++ " | " ++ Text.str f.help_text))) := by
  constructor
  · intro c
    rw [get_comments_for_model]
    rw [dictGet_assocUpdates_isSome (field_update m.id) m.fields [] c]
    simp only [dictGet, Option.isSome_none, Bool.false_eq_true, false_or]
    constructor
    · rintro ⟨f, hf, v, hv⟩
      rcases (field_update_eq_some_iff m.id f _).mp hv with ⟨hloc, hne, hkv⟩
      refine ⟨f, hf, hloc, ?_, (field_comment_ne_nil_iff f).mp hne⟩
      exact (congrArg Prod.fst hkv).symm
    · rintro ⟨f, hf, hloc, hcol, hor⟩
      refine ⟨f, hf, pyJoin " | " (field_comment f), ?_⟩
      rw [(field_update_eq_some_iff m.id f _).mpr
        ⟨hloc, (field_comment_ne_nil_iff f).mpr hor, rfl⟩]
      rw [hcol]
  · intro hnd f hf hloc
    constructor
    · exact dictGet_get_comments_of_local m hnd f hf hloc
    · intro h1 h2
      have hcomment := field_comment_of_both f h1 h2
      have hne : field_comment f ≠ [] := by rw [hcomment]; simp
      rw [dictGet_get_comments_of_local m hnd f hf hloc hne, hcomment]
      rfl

/-- Witness for C3 at the spec's worked example: the model with column
`verbose_name`, display name `This is verbose name` and (lazy) help text
`I am really should see this in database` yields exactly
`This is verbose name | I am really should see this in database`. -/
theorem C3_extractor_entry_iff_witness :
    (vn_model.fields.map Field.column).Nodup ∧ vn_field ∈ vn_model.fields ∧
      vn_field.model = vn_model.id ∧
      Text.lower vn_field.verbose_name ≠
        replaceUnderscores (lowerAscii vn_field.name) ∧
      vn_field.help_text.isTruthy = true ∧
      dictGet (get_comments_for_model vn_model) "verbose_name" =
        some "This is verbose name | I am really should see this in database" :=
  ⟨by decide, by decide, by decide, by decide, by decide,
    ((C3_extractor_entry_iff vn_model).2 (by decide) vn_field (by decide)
      (by decide)).2 (by decide) (by decide)⟩

/-- Counterexample to claim C2 as stated: `author_field` has attribute name
`author` but database column `author_id` (the foreign-key case).  Its
display name `author`, compared case-insensitively, differs from the column
name with underscores replaced by spaces (`author id`), so the claim says
the display name is included as a comment part — but the code compares
against the attribute name (line 41 uses `field.name`, not `field.column`)
and includes nothing: the extractor's part list and result are empty. -/
theorem C2_counterexample :
    Text.lower author_field.verbose_name ≠
      replaceUnderscores (lowerAscii author_field.column) ∧
    author_field.model = book_model.id ∧
    field_comment author_field = [] ∧
    get_comments_for_model book_model = [] := by
  refine ⟨by decide, by decide, by decide, by decide⟩

/-- Claim C2 (amended): the display name is included as a comment part iff
it differs, case-insensitively, from the field's attribute name
(`field.name`) with underscores replaced by spaces — the attribute name
coincides with the column name for ordinary fields but not, e.g., for
foreign keys.  When it differs it is the first part; when it coincides the
parts can only be the help text; for a field with no help text, the column
gets an entry (the display name itself) exactly when the display name
differs. -/
theorem C2_display_name_part_iff (m : Model) (f : Field) (hf : f ∈ m.fields)
    (hloc : f.model = m.id) :
    (Text.lower f.verbose_name ≠ replaceUnderscores (lowerAscii f.name) →
      (field_comment f).head? = some (Text.str f.verbose_name)) ∧
    (Text.lower f.verbose_name = replaceUnderscores (lowerAscii f.name) →
      ∀ s ∈ field_comment f, s = Text.str f.help_text) ∧
    ((m.fields.map Field.column).Nodup → f.help_text.isTruthy = false →
      dictGet (get_comments_for_model m) f.column =
        (if Text.lower f.verbose_name ≠ replaceUnderscores (lowerAscii f.name)
          then some (Text.str f.verbose_name) else none)) := by
  refine ⟨?_, ?_, ?_⟩
  · intro h1
    simp [field_comment, h1]
  · intro h1 s hs
    rw [field_comment, if_neg (not_not.mpr h1), List.nil_append] at hs
    by_cases h2 : f.help_text.isTruthy = true
    · rw [if_pos h2] at hs
      simpa using hs
    · rw [if_neg h2] at hs
      cases hs
  · intro hnd h2
    by_cases h1 : Text.lower f.verbose_name ≠ replaceUnderscores (lowerAscii f.name)
    · rw [if_pos h1]
      have hcomment : field_comment f = [Text.str f.verbose_name] := by
        simp [field_comment, h1, h2]
      rw [dictGet_get_comments_of_local m hnd f hf hloc (by rw [hcomment]; simp),
        hcomment]
      rfl
    · rw [if_neg h1]
      have hempty : field_comment f = [] := by
        simp only [not_not] at h1
        simp [field_comment, h1, h2]
      cases hget : dictGet (get_comments_for_model m) f.column with
      | none => rfl
      | some v =>
        exfalso
        have hsome : (dictGet (get_comments_for_model m) f.column).isSome = true := by
          rw [hget]; rfl
        rw [get_comments_for_model,
          dictGet_assocUpdates_isSome (field_update m.id) m.fields [] f.column] at hsome
        rcases hsome with hnone | ⟨f2, hf2, v2, hv2⟩
        · cases hnone
        · rcases (field_update_eq_some_iff m.id f2 _).mp hv2 with ⟨hloc2, hne2, hkv2⟩
          have hcol2 : f2.column = f.column := (congrArg Prod.fst hkv2).symm
          have : f2 = f := List.inj_on_of_nodup_map hnd hf2 hf hcol2
          rw [this] at hne2
          exact hne2 hempty

/-- Witness for the amended C2 at the spec's `created_at` example: the
display name `created at` equals the attribute name with underscores
replaced by spaces, so the extractor yields no entry for the column. -/
theorem C2_display_name_part_iff_witness :
    created_at_plain_field ∈ created_at_model.fields ∧
    created_at_plain_field.model = created_at_model.id ∧
    (created_at_model.fields.map Field.column).Nodup ∧
    created_at_plain_field.help_text.isTruthy = false ∧
    Text.lower created_at_plain_field.verbose_name =
      replaceUnderscores (lowerAscii created_at_plain_field.name) ∧
    dictGet (get_comments_for_model created_at_model) "created_at" = none :=
  ⟨by decide, by decide, by decide, by decide, by decide,
    ((C2_display_name_part_iff created_at_model created_at_plain_field
      (by decide) (by decide)).2.2 (by decide) (by decide)).trans (by decide)⟩

/-- Claim C8: inherited fields contribute nothing — restricting a model's
field list to the fields whose declaring model is the model itself leaves
the extractor's result unchanged, so only locally declared fields are
considered. -/
theorem C8_inherited_fields_excluded (m : Model) :
    get_comments_for_model
      { m with fields := m.fields.filter (fun f => f.model == m.id) } =
      get_comments_for_model m := by
  rw [get_comments_for_model, get_comments_for_model]
  exact assocUpdates_filter (field_update m.id) _ m.fields []
    (fun f hf hfalse => by
      simp [field_update, (by simpa using hfalse : ¬ f.model = m.id)])

/-! ### Orchestrator lemmas -/

theorem copy_guard_hit (env : Env) (processed : List Nat) (app_config : AppConfig)
    (usingAlias : String) (registry_models : List Model)
    (h : processed.contains app_config.id = true) :
    copy_help_texts_to_database env processed app_config usingAlias registry_models =
      { processed := processed, events := [], error := none } := by
  simp [copy_help_texts_to_database, List.elem_iff.mp h]

theorem copy_check_fail (env : Env) (processed : List Nat) (app_config : AppConfig)
    (usingAlias : String) (registry_models : List Model)
    (h1 : processed.contains app_config.id = false)
    (h2 : _check_app_config env app_config usingAlias = false) :
    copy_help_texts_to_database env processed app_config usingAlias registry_models =
      { processed := processed ++ [app_config.id], events := [], error := none } := by
  have hm : app_config.id ∉ processed := fun hmem => by
    have hc : processed.contains app_config.id = true := List.elem_iff.mpr hmem
    rw [hc] at h1
    cases h1
  simp [copy_help_texts_to_database, hm, h2]

theorem copy_main (env : Env) (processed : List Nat) (app_config : AppConfig)
    (usingAlias : String) (registry_models : List Model)
    (h1 : processed.contains app_config.id = false)
    (h2 : _check_app_config env app_config usingAlias = true) :
    copy_help_texts_to_database env processed app_config usingAlias registry_models =
      sync_models env (processed ++ [app_config.id]) usingAlias registry_models := by
  have hm : app_config.id ∉ processed := fun hmem => by
    have hc : processed.contains app_config.id = true := List.elem_iff.mpr hmem
    rw [hc] at h1
    cases h1
  simp [copy_help_texts_to_database, hm, h2]

theorem sync_models_processed (env : Env) (p2 : List Nat) (usingAlias : String)
    (registry_models : List Model) :
    (sync_models env p2 usingAlias registry_models).processed = p2 := by
  simp only [sync_models]
  split <;> rfl

theorem copy_processed_of_not_mem (env : Env) (processed : List Nat)
    (app_config : AppConfig) (usingAlias : String) (registry_models : List Model)
    (h1 : processed.contains app_config.id = false) :
    (copy_help_texts_to_database env processed app_config usingAlias
      registry_models).processed = processed ++ [app_config.id] := by
  by_cases h2 : _check_app_config env app_config usingAlias = true
  · rw [copy_main env processed app_config usingAlias registry_models h1 h2,
      sync_models_processed]
  · rw [copy_check_fail env processed app_config usingAlias registry_models h1
      (Bool.eq_false_iff.mpr h2)]

theorem copy_marks (env : Env) (processed : List Nat) (app_config : AppConfig)
    (usingAlias : String) (registry_models : List Model) :
    (copy_help_texts_to_database env processed app_config usingAlias
      registry_models).processed.contains app_config.id = true := by
  by_cases h1 : processed.contains app_config.id = true
  · rw [copy_guard_hit env processed app_config usingAlias registry_models h1]
    exact h1
  · rw [copy_processed_of_not_mem env processed app_config usingAlias registry_models
      (Bool.eq_false_iff.mpr h1)]
    exact List.elem_iff.mpr (by simp)

theorem check_app_config_eq (env : Env) (app_config : AppConfig) (usingAlias : String) :
    _check_app_config env app_config usingAlias =
      (app_config.models_module &&
        (ALLOWED_ENGINES.contains (env.engine usingAlias) &&
          env.allow_migrate usingAlias app_config.label)) := by
  rw [_check_app_config]
  cases h1 : app_config.models_module <;>
    cases h2 : ALLOWED_ENGINES.contains (env.engine usingAlias) <;>
      cases h3 : env.allow_migrate usingAlias app_config.label <;> simp [h1, h2, h3]

/-- Claim C4: the first orchestrator call for a module adds it to
`PROCESSED_APPS` before the eligibility check (the mark happens whatever
the environment says about eligibility), an already-marked module makes the
call return immediately unchanged, and any second call for the module —
under any environment, alias and registry — performs zero column-comment
writes and zero table-comment writes. -/
theorem C4_guard_marks_and_blocks (env env2 : Env) (processed : List Nat)
    (app_config : AppConfig) (a1 a2 : String) (reg1 reg2 : List Model) :
    (processed.contains app_config.id = false →
      (copy_help_texts_to_database env processed app_config a1 reg1).processed =
        processed ++ [app_config.id]) ∧
    (processed.contains app_config.id = true →
      copy_help_texts_to_database env processed app_config a1 reg1 =
        { processed := processed, events := [], error := none }) ∧
    (copy_help_texts_to_database env2
        (copy_help_texts_to_database env processed app_config a1 reg1).processed
        app_config a2 reg2 =
      { processed :=
          (copy_help_texts_to_database env processed app_config a1 reg1).processed,
        events := [], error := none }) := by
  refine ⟨?_, ?_, ?_⟩
  · intro h1
    exact copy_processed_of_not_mem env processed app_config a1 reg1 h1
  · intro h1
    exact copy_guard_hit env processed app_config a1 reg1 h1
  · exact copy_guard_hit env2 _ app_config a2 reg2
      (copy_marks env processed app_config a1 reg1)

/-- Witness for C4: the `tests` app config, not yet processed, is marked by
the first call, and the second call in the same process is a no-op with an
empty trace. -/
theorem C4_guard_marks_and_blocks_witness :
    ([] : List Nat).contains tests_app.id = false ∧
    (copy_help_texts_to_database envOk [] tests_app "default"
      [example_model]).processed = [] ++ [tests_app.id] ∧
    copy_help_texts_to_database envOk
      (copy_help_texts_to_database envOk [] tests_app "default"
        [example_model]).processed
      tests_app "default" [example_model] =
    { processed :=
        (copy_help_texts_to_database envOk [] tests_app "default"
          [example_model]).processed,
      events := [], error := none } :=
  ⟨by decide,
    (C4_guard_marks_and_blocks envOk envOk [] tests_app "default" "default"
      [example_model] [example_model]).1 (by decide),
    (C4_guard_marks_and_blocks envOk envOk [] tests_app "default" "default"
      [example_model] [example_model]).2.2⟩

/-- Claim C6: `_check_app_config` is true exactly when the module has a
models module, the configured engine for the alias is one of the four
allowed identifiers, and the router allows migration; with any other engine
the orchestrator's trace is empty (zero writes), whatever the models are. -/
theorem C6_eligibility_filter (env : Env) (app_config : AppConfig)
    (usingAlias : String) (processed : List Nat) (registry_models : List Model) :
    (ALLOWED_ENGINES =
      ["django.db.backends.postgresql", "django.contrib.gis.db.backends.postgis",
       "django.db.backends.postgresql_psycopg2", "psqlextra.backend"]) ∧
    (_check_app_config env app_config usingAlias = true ↔
      (app_config.models_module = true ∧
        env.engine usingAlias ∈ ALLOWED_ENGINES ∧
        env.allow_migrate usingAlias app_config.label = true)) ∧
    (env.engine usingAlias ∉ ALLOWED_ENGINES →
      (copy_help_texts_to_database env processed app_config usingAlias
        registry_models).events = []) := by
  refine ⟨rfl, ?_, ?_⟩
  · rw [check_app_config_eq]
    simp only [Bool.and_eq_true]
    constructor
    · rintro ⟨hm, he, hr⟩
      exact ⟨hm, List.elem_iff.mp he, hr⟩
    · rintro ⟨hm, he, hr⟩
      exact ⟨hm, List.elem_iff.mpr he, hr⟩
  · intro hmem
    have hcheck : _check_app_config env app_config usingAlias = false := by
      rw [check_app_config_eq]
      simp [hmem]
    by_cases h1 : processed.contains app_config.id = true
    · rw [copy_guard_hit env processed app_config usingAlias registry_models h1]
    · rw [copy_check_fail env processed app_config usingAlias registry_models
        (Bool.eq_false_iff.mpr h1) hcheck]

/-- Witness for C6: with the MySQL engine the orchestrator issues no
statement at all, even for a registry holding a fully documented concrete
model. -/
theorem C6_eligibility_filter_witness :
    envMysql.engine "default" ∉ ALLOWED_ENGINES ∧
    (copy_help_texts_to_database envMysql [] tests_app "default"
      [example_model]).events = [] :=
  ⟨by decide,
    (C6_eligibility_filter envMysql tests_app "default" [] [example_model]).2.2
      (by decide)⟩

/-- The executed events of the column statements, in dict iteration
order. -/
theorem map_exec_column_stmts (cc : List (String × List (String × String))) :
    (column_stmts cc).map (fun sp => Event.execute sp.1 sp.2) =
      cc.flatMap (fun tc => tc.2.map (fun p =>
        Event.execute (column_comment_sql tc.1 p.1) [p.2])) := by
  induction cc with
  | nil => rfl
  | cons tc rest ih =>
    rw [column_stmts, List.flatMap_cons, List.map_append, List.flatMap_cons]
    have ih2 : List.map (fun sp => Event.execute sp.1 sp.2)
        (rest.flatMap (fun tc => tc.2.map (fun cc =>
          (column_comment_sql tc.1 cc.1, [cc.2])))) =
        rest.flatMap (fun tc => tc.2.map (fun p =>
          Event.execute (column_comment_sql tc.1 p.1) [p.2])) := ih
    rw [ih2, List.map_map]
    rfl

/-- Claim C5: with a database accepting every statement, the column writer
emits — inside one cursor and one transaction — exactly one
`COMMENT ON COLUMN "<table>"."<column>" IS %s` per `(table, column)` entry
in the mapping's iteration order, with the comment as the single bound
parameter, never interpolated into the SQL text; and the table writer emits
exactly one `COMMENT ON TABLE "<table>" IS %s` per table entry likewise. -/
theorem C5_writer_statements (env : Env) (hok : ∀ s p, env.execOk s p = true)
    (columns_comments : List (String × List (String × String)))
    (table_comment_dict : List (String × String)) (usingAlias : String) :
    add_column_comments_to_database env columns_comments usingAlias =
      (Event.openCursor usingAlias :: Event.beginAtomic ::
        columns_comments.flatMap (fun tc => tc.2.map (fun cc =>
          Event.execute
            ("COMMENT ON COLUMN " ++ quoteIdent tc.1 ++ "." ++ quoteIdent cc.1 ++
              " IS %s")
            [cc.2])),
        none) ∧
    add_table_comments_to_database env table_comment_dict usingAlias =
      (Event.openCursor usingAlias :: Event.beginAtomic ::
        table_comment_dict.map (fun tc =>
          Event.execute ("COMMENT ON TABLE " ++ quoteIdent tc.1 ++ " IS %s")
            [tc.2]),
        none) := by
  constructor
  · rw [add_column_comments_to_database, execStmts_total env _ hok]
    rw [map_exec_column_stmts]
    rfl
  · rw [add_table_comments_to_database, execStmts_total env _ hok]
    rw [List.map_map]
    rfl

/-- Witness for C5 at the test suite's example: the single-entry mapping
issues exactly one column statement, with quoted identifiers and the
comment as bound parameter (and likewise one table statement). -/
theorem C5_writer_statements_witness :
    (∀ s p, envOk.execOk s p = true) ∧
    add_column_comments_to_database envOk
        [("model", [("verbose_name", "This is verbose name")])] "default" =
      ([Event.openCursor "default", Event.beginAtomic,
        Event.execute "COMMENT ON COLUMN \"model\".\"verbose_name\" IS %s"
          ["This is verbose name"]], none) ∧
    add_table_comments_to_database envOk [("model", "This is verbose name")]
        "default" =
      ([Event.openCursor "default", Event.beginAtomic,
        Event.execute "COMMENT ON TABLE \"model\" IS %s"
          ["This is verbose name"]], none) :=
  ⟨fun _ _ => rfl,
    ((C5_writer_statements envOk (fun _ _ => rfl)
      [("model", [("verbose_name", "This is verbose name")])]
      [("model", "This is verbose name")] "default").1).trans (by decide),
    ((C5_writer_statements envOk (fun _ _ => rfl)
      [("model", [("verbose_name", "This is verbose name")])]
      [("model", "This is verbose name")] "default").2).trans (by decide)⟩

/-- A failing statement inside a writer is the last event of the writer's
trace. -/
theorem writer_error_last (env : Env) (stmts : List (String × List String))
    (usingAlias : String) (e : PgError) (h : (execStmts env stmts).2 = some e) :
    (Event.openCursor usingAlias :: Event.beginAtomic ::
      (execStmts env stmts).1).getLast? = some (Event.execute e.sql e.params) := by
  rcases execStmts_error env stmts e h with ⟨h1, h2⟩
  have hne : (execStmts env stmts).1 ≠ [] := fun hnil => by rw [hnil] at h2; cases h2
  rw [getLast?_cons_of_ne_nil _ _ (by simp), getLast?_cons_of_ne_nil _ _ hne]
  exact h2

theorem col_phase_error (env : Env) (usingAlias : String) (ms : List Model)
    (e : PgError) (h : (col_phase env usingAlias ms).2 = some e) :
    env.execOk e.sql e.params = false ∧
      (col_phase env usingAlias ms).1.getLast? =
        some (Event.execute e.sql e.params) := by
  rw [col_phase] at h ⊢
  by_cases hemp : (columns_comments_map ms).isEmpty = true
  · rw [if_pos hemp] at h
    cases h
  · rw [if_neg hemp] at h ⊢
    have h2 : (execStmts env (column_stmts (columns_comments_map ms))).2 = some e := h
    exact ⟨(execStmts_error env _ e h2).1,
      writer_error_last env _ usingAlias e h2⟩

theorem tab_phase_error (env : Env) (usingAlias : String) (ms : List Model)
    (e : PgError) (h : (tab_phase env usingAlias ms).2 = some e) :
    env.execOk e.sql e.params = false ∧
      (tab_phase env usingAlias ms).1.getLast? =
        some (Event.execute e.sql e.params) := by
  rw [tab_phase] at h ⊢
  by_cases hemp : (table_comments_map ms).isEmpty = true
  · rw [if_pos hemp] at h
    cases h
  · rw [if_neg hemp] at h ⊢
    have h2 : (execStmts env
      ((table_comments_map ms).map (fun tc => (table_comment_sql tc.1, [tc.2])))).2 =
        some e := h
    exact ⟨(execStmts_error env _ e h2).1,
      writer_error_last env _ usingAlias e h2⟩

theorem sync_models_error (env : Env) (p2 : List Nat) (usingAlias : String)
    (registry_models : List Model) (e : PgError)
    (h : (sync_models env p2 usingAlias registry_models).error = some e) :
    env.execOk e.sql e.params = false ∧
      (sync_models env p2 usingAlias registry_models).events.getLast? =
        some (Event.execute e.sql e.params) := by
  cases hcol : (col_phase env usingAlias (registry_models.filter model_is_concrete)).2 with
  | some e2 =>
    simp only [sync_models, hcol] at h ⊢
    injection h with h
    subst h
    exact col_phase_error env usingAlias _ e2 hcol
  | none =>
    simp only [sync_models, hcol] at h ⊢
    rcases tab_phase_error env usingAlias _ e h with ⟨h1, h2⟩
    refine ⟨h1, ?_⟩
    have hne : (tab_phase env usingAlias (registry_models.filter model_is_concrete)).1 ≠ [] :=
      fun hnil => by rw [hnil] at h2; cases h2
    rw [List.getLast?_append_of_ne_nil _ hne]
    exact h2

/-- Claim C7: if a writer statement fails, the exception reaches the
orchestrator's caller unmodified — the propagated error is exactly a
statement the database rejected, the trace ends at that statement (no
retry, nothing executed after it), and the module's `PROCESSED_APPS` mark,
made at the start, is still present in the resulting state. -/
theorem C7_error_uncaught (env : Env) (processed : List Nat)
    (app_config : AppConfig) (usingAlias : String) (registry_models : List Model)
    (e : PgError)
    (h : (copy_help_texts_to_database env processed app_config usingAlias
      registry_models).error = some e) :
    app_config.id ∈ (copy_help_texts_to_database env processed app_config
      usingAlias registry_models).processed ∧
    env.execOk e.sql e.params = false ∧
    (copy_help_texts_to_database env processed app_config usingAlias
      registry_models).events.getLast? = some (Event.execute e.sql e.params) := by
  by_cases h1 : processed.contains app_config.id = true
  · rw [copy_guard_hit env processed app_config usingAlias registry_models h1] at h
    cases h
  · have h1f := Bool.eq_false_iff.mpr h1
    by_cases h2 : _check_app_config env app_config usingAlias = true
    · rw [copy_main env processed app_config usingAlias registry_models h1f h2]
        at h ⊢
      refine ⟨?_, sync_models_error env _ usingAlias registry_models e h⟩
      rw [sync_models_processed]
      simp
    · rw [copy_check_fail env processed app_config usingAlias registry_models h1f
        (Bool.eq_false_iff.mpr h2)] at h
      cases h

/-- Witness for C7: a database rejecting every statement makes the first
column statement of the example model the propagated error, the trace ends
there, and the module stays marked. -/
theorem C7_error_uncaught_witness :
    (copy_help_texts_to_database envReject [] tests_app "default"
      [example_model]).error =
      some { sql := "COMMENT ON COLUMN \"tests_examplemodel\".\"created_at\" IS %s",
             params := ["model creation time"] } ∧
    (tests_app.id ∈ (copy_help_texts_to_database envReject [] tests_app "default"
      [example_model]).processed ∧
    envReject.execOk "COMMENT ON COLUMN \"tests_examplemodel\".\"created_at\" IS %s"
      ["model creation time"] = false ∧
    (copy_help_texts_to_database envReject [] tests_app "default"
      [example_model]).events.getLast? =
      some (Event.execute
        "COMMENT ON COLUMN \"tests_examplemodel\".\"created_at\" IS %s"
        ["model creation time"])) :=
  ⟨by decide,
    C7_error_uncaught envReject [] tests_app "default" [example_model]
      { sql := "COMMENT ON COLUMN \"tests_examplemodel\".\"created_at\" IS %s",
        params := ["model creation time"] } (by decide)⟩

/-! ### Table- and column-map lemmas -/

theorem table_update_eq_some_iff (m : Model) (kv : String × String) :
    table_update m = some kv ↔
      (m.verbose_name.isTruthy = true ∧
        kv = (m.db_table, Text.title m.verbose_name)) := by
  by_cases h : m.verbose_name.isTruthy = true <;> simp [table_update, h, eq_comm]

theorem updKeys_table_update_sublist (ms : List Model) :
    (updKeys table_update ms).Sublist (ms.map (fun m => m.db_table)) := by
  refine updKeys_sublist_map table_update (fun m => m.db_table) ms ?_
  intro m kv h
  rcases (table_update_eq_some_iff m kv).mp h with ⟨_, hkv⟩
  rw [hkv]

theorem updKeys_columns_update (ms : List Model) :
    updKeys columns_update ms = ms.map (fun m => m.db_table) := by
  rw [updKeys]
  have hfun : (fun b : Model => Option.map Prod.fst (columns_update b)) =
      some ∘ (fun m : Model => m.db_table) := rfl
  rw [hfun, List.filterMap_eq_map]

theorem columns_comments_map_ne_nil (ms : List Model) (h : ms ≠ []) :
    columns_comments_map ms ≠ [] := by
  cases ms with
  | nil => exact absurd rfl h
  | cons m rest =>
    rw [columns_comments_map,
      assocUpdates_cons_some columns_update m rest []
        (m.db_table, get_comments_for_model m) rfl]
    exact assocUpdates_ne_nil columns_update rest _ (by simp [dictInsert])

theorem col_phase_events_of_nonempty (env : Env) (usingAlias : String)
    (ms : List Model) (h : (columns_comments_map ms).isEmpty = false) :
    (col_phase env usingAlias ms).1 =
      Event.openCursor usingAlias :: Event.beginAtomic ::
        (execStmts env (column_stmts (columns_comments_map ms))).1 := by
  rw [col_phase, if_neg (by rw [h]; exact Bool.false_ne_true)]
  rfl

theorem col_phase_openCursor_count (env : Env) (usingAlias : String)
    (ms : List Model) :
    (col_phase env usingAlias ms).1.countP (fun ev => ev.isOpenCursor) =
      (if (columns_comments_map ms).isEmpty then 0 else 1) := by
  rw [col_phase]
  by_cases hemp : (columns_comments_map ms).isEmpty = true
  · rw [if_pos hemp, if_pos hemp]
    rfl
  · rw [if_neg hemp, if_neg hemp]
    show (Event.openCursor usingAlias :: Event.beginAtomic ::
      (execStmts env (column_stmts (columns_comments_map ms))).1).countP
        (fun ev => ev.isOpenCursor) = 1
    rw [List.countP_cons, List.countP_cons,
      List.countP_eq_zero.mpr (fun ev hev => by
        rw [execStmts_isOpenCursor env _ ev hev]
        exact Bool.false_ne_true)]
    rfl

/-- Claim C9: in an orchestrator run that passes the guard and the
eligibility check, with pairwise distinct tables, a table is a key of the
table-comment dict iff its model's display name is non-empty, the value is
the title-cased display name, and when the dict is empty the table writer
is never invoked — the trace opens exactly as many cursors as the column
phase alone (one if the column dict is non-empty, zero otherwise). -/
theorem C9_table_comment_map (env : Env) (processed : List Nat)
    (app_config : AppConfig) (usingAlias : String) (registry_models : List Model)
    (hnd : ((registry_models.filter model_is_concrete).map
      (fun m => m.db_table)).Nodup)
    (h1 : processed.contains app_config.id = false)
    (h2 : _check_app_config env app_config usingAlias = true) :
    (∀ t c,
      dictGet (table_comments_map (registry_models.filter model_is_concrete)) t =
          some c ↔
        ∃ m ∈ registry_models.filter model_is_concrete,
          m.db_table = t ∧ m.verbose_name.isTruthy = true ∧
          c = Text.title m.verbose_name) ∧
    (table_comments_map (registry_models.filter model_is_concrete) = [] →
      (copy_help_texts_to_database env processed app_config usingAlias
          registry_models).events.countP (fun ev => ev.isOpenCursor) =
        (if (columns_comments_map
            (registry_models.filter model_is_concrete)).isEmpty then 0 else 1)) := by
  constructor
  · intro t c
    rw [table_comments_map,
      dictGet_assocUpdates_eq_some table_update _ [] t c
        ((updKeys_table_update_sublist _).nodup hnd)]
    constructor
    · rintro (⟨h3, _⟩ | ⟨m, hm, hv⟩)
      · cases h3
      · rcases (table_update_eq_some_iff m _).mp hv with ⟨htr, hkv⟩
        refine ⟨m, hm, ?_, htr, ?_⟩
        · exact (congrArg Prod.fst hkv).symm
        · exact congrArg Prod.snd hkv
    · rintro ⟨m, hm, ht, htr, hc⟩
      refine Or.inr ⟨m, hm, (table_update_eq_some_iff m _).mpr ⟨htr, ?_⟩⟩
      rw [ht, hc]
  · intro h3
    rw [copy_main env processed app_config usingAlias registry_models h1 h2]
    have htab : tab_phase env usingAlias (registry_models.filter model_is_concrete) =
        ([], none) := by
      rw [tab_phase, if_pos (by rw [h3]; rfl)]
    cases hcol : (col_phase env usingAlias
      (registry_models.filter model_is_concrete)).2 with
    | some e =>
      simp only [sync_models, hcol]
      exact col_phase_openCursor_count env usingAlias _
    | none =>
      simp only [sync_models, hcol, htab, List.append_nil]
      exact col_phase_openCursor_count env usingAlias _

/-- Witness for C9: a registry with one concrete model whose display name
is empty gives an empty table-comment dict, and the run opens exactly one
cursor (the column phase; the table writer is not invoked). -/
theorem C9_table_comment_map_witness :
    (([bare_model].filter model_is_concrete).map (fun m => m.db_table)).Nodup ∧
    ([] : List Nat).contains tests_app.id = false ∧
    _check_app_config envOk tests_app "default" = true ∧
    table_comments_map ([bare_model].filter model_is_concrete) = [] ∧
    (copy_help_texts_to_database envOk [] tests_app "default"
        [bare_model]).events.countP (fun ev => ev.isOpenCursor) =
      (if (columns_comments_map
          ([bare_model].filter model_is_concrete)).isEmpty then 0 else 1) :=
  ⟨by decide, by decide, by decide, by decide,
    (C9_table_comment_map envOk [] tests_app "default" [bare_model]
      (by decide) (by decide) (by decide)).2 (by decide)⟩

/-- Claim C10: in a run that passes the guard and the eligibility check,
the column-comment dict has exactly one key per enumerated concrete model —
its table, mapped to that model's extracted comments, an empty inner dict
for an undocumented model — so as soon as one concrete model exists the
column writer is invoked (the trace starts by opening its cursor and
transaction), and when every model is undocumented the invoked writer
executes zero statements. -/
theorem C10_column_map_total (env : Env) (processed : List Nat)
    (app_config : AppConfig) (usingAlias : String) (registry_models : List Model)
    (hnd : ((registry_models.filter model_is_concrete).map
      (fun m => m.db_table)).Nodup)
    (h1 : processed.contains app_config.id = false)
    (h2 : _check_app_config env app_config usingAlias = true) :
    (dictKeys (columns_comments_map (registry_models.filter model_is_concrete)) =
      (registry_models.filter model_is_concrete).map (fun m => m.db_table)) ∧
    (∀ m ∈ registry_models.filter model_is_concrete,
      dictGet (columns_comments_map (registry_models.filter model_is_concrete))
        m.db_table = some (get_comments_for_model m)) ∧
    (registry_models.filter model_is_concrete ≠ [] →
      (copy_help_texts_to_database env processed app_config usingAlias
        registry_models).events.take 2 =
        [Event.openCursor usingAlias, Event.beginAtomic]) ∧
    (registry_models.filter model_is_concrete ≠ [] →
      (∀ m ∈ registry_models.filter model_is_concrete,
        get_comments_for_model m = []) →
      col_phase env usingAlias (registry_models.filter model_is_concrete) =
        ([Event.openCursor usingAlias, Event.beginAtomic], none)) := by
  have hukeys : updKeys columns_update (registry_models.filter model_is_concrete) =
      (registry_models.filter model_is_concrete).map (fun m => m.db_table) :=
    updKeys_columns_update _
  refine ⟨?_, ?_, ?_, ?_⟩
  · rw [columns_comments_map, dictKeys_assocUpdates columns_update _ []
      (by rw [hukeys]; simpa [dictKeys] using hnd), hukeys]
    rfl
  · intro m hm
    rw [columns_comments_map,
      dictGet_assocUpdates_eq_some columns_update _ [] m.db_table
        (get_comments_for_model m) (by rw [hukeys]; exact hnd)]
    exact Or.inr ⟨m, hm, rfl⟩
  · intro hne
    have hemp : (columns_comments_map
        (registry_models.filter model_is_concrete)).isEmpty = false := by
      simp [List.isEmpty_iff, columns_comments_map_ne_nil _ hne]
    rw [copy_main env processed app_config usingAlias registry_models h1 h2]
    cases hcol : (col_phase env usingAlias
      (registry_models.filter model_is_concrete)).2 with
    | some e =>
      simp only [sync_models, hcol]
      rw [col_phase_events_of_nonempty env usingAlias _ hemp]
      rfl
    | none =>
      simp only [sync_models, hcol]
      rw [col_phase_events_of_nonempty env usingAlias _ hemp, List.cons_append,
        List.cons_append]
      rfl
  · intro hne hall
    have hemp : (columns_comments_map
        (registry_models.filter model_is_concrete)).isEmpty = false := by
      simp [List.isEmpty_iff, columns_comments_map_ne_nil _ hne]
    have hstmts : column_stmts (columns_comments_map
        (registry_models.filter model_is_concrete)) = [] := by
      rw [column_stmts]
      refine List.flatMap_eq_nil_iff.mpr ?_
      intro tc htc
      rcases mem_assocUpdates columns_update _ [] tc htc with htc | ⟨m, hm, hv⟩
      · cases htc
      · have : tc.2 = get_comments_for_model m := by
          rw [columns_update] at hv
          injection hv with hv
          rw [← hv]
        rw [this, hall m hm]
        rfl
    rw [col_phase, if_neg (by rw [hemp]; exact Bool.false_ne_true),
      add_column_comments_to_database, hstmts]
    rfl

/-- Witness for C10: one concrete model with no fields still puts its table
in the column dict (with an empty inner dict), and the column writer runs
with its cursor and transaction but zero statements. -/
theorem C10_column_map_total_witness :
    (([bare_model].filter model_is_concrete).map (fun m => m.db_table)).Nodup ∧
    ([] : List Nat).contains tests_app.id = false ∧
    _check_app_config envOk tests_app "default" = true ∧
    [bare_model].filter model_is_concrete ≠ [] ∧
    (∀ m ∈ [bare_model].filter model_is_concrete,
      get_comments_for_model m = []) ∧
    dictKeys (columns_comments_map ([bare_model].filter model_is_concrete)) =
      ([bare_model].filter model_is_concrete).map (fun m => m.db_table) ∧
    col_phase envOk "default" ([bare_model].filter model_is_concrete) =
      ([Event.openCursor "default", Event.beginAtomic], none) :=
  ⟨by decide, by decide, by decide, by decide, by decide,
    (C10_column_map_total envOk [] tests_app "default" [bare_model]
      (by decide) (by decide) (by decide)).1,
    (C10_column_map_total envOk [] tests_app "default" [bare_model]
      (by decide) (by decide) (by decide)).2.2.2 (by decide) (by decide)⟩

/-- Claim C1 at its failing input: the orchestrator called for the `tests`
app config also computes and writes comments for `other_model`, a concrete
model whose `app_label` is `other` — the code enumerates
`apps.get_models()`, the whole registry, not the given module's models,
contradicting its own docstring ("models in the given app"). -/
theorem C1_foreign_app_model_written :
    other_model.app_label ≠ tests_app.label ∧
    Event.execute "COMMENT ON COLUMN \"other_table\".\"note\" IS %s" ["a note"] ∈
      (copy_help_texts_to_database envOk [] tests_app "default"
        [example_model, other_model]).events := by
  refine ⟨by decide, by decide⟩

end DbComments
